import Mathlib

/-!
# Verification of the kcheck kernel-config matching engine

A shallow embedding of the kcheck repository (crate `kcheck`): the state
lattice (`KconfigState`), the line-oriented kernel-config scanner
(`KernelConfig::option` and friends from `src/kcheck/src/kernel.rs`), the
requirement aggregation model (`src/kcheck/src/config.rs`), and the pieces of
`src/kcheck/src/util.rs` they use.

Rust strings are modelled as `List Char` (`Str`).  Rust functions that can
panic (out-of-bounds indexing, `todo!()`) are modelled in `Option`, where
`none` marks a panic; fallible functions return `KcheckResult`.
-/

set_option autoImplicit false

namespace Kcheck

/-- Rust `&str` / `String`, modelled as a list of characters. -/
abbrev Str := List Char

/-- Boolean prefix test on character lists (Rust `str::starts_with` on a
string pattern; also the primitive used to locate substring matches). -/
def pfx : Str → Str → Bool
  | [], _ => true
  | _ :: _, [] => false
  | a :: as, b :: bs => a == b && pfx as bs

/-- First position `≥ i` (counting from `i` at `s` itself) at which `pat`
occurs in `s`, scanning left to right one character at a time.  This is the
match-finding discipline of Rust's string searcher. -/
def firstMatchAux (pat : Str) : Str → Nat → Option Nat
  | s, i =>
    if pfx pat s then some i
    else
      match s with
      | [] => none
      | _ :: rest => firstMatchAux pat rest (i + 1)

/-- Position of the leftmost occurrence of `pat` in `s`, if any. -/
def firstMatch (pat s : Str) : Option Nat :=
  firstMatchAux pat s 0

/-- Rust `str::contains` with a string pattern: substring test. -/
def containsSub (pat s : Str) : Bool :=
  (firstMatch pat s).isSome

/-- Rust `str::contains` with a `char` pattern. -/
def containsChar (c : Char) (s : Str) : Bool :=
  s.contains c

/-- Worker for `splitInclusive`: repeatedly cut the string just after the
leftmost occurrence of `pat`.  `fuel` bounds the recursion; `fuel = s.length`
is always enough for a non-empty pattern because every step consumes at least
one character. -/
def splitIncGo : Nat → Str → Str → List Str
  | _, _, [] => []
  | 0, _, s => [s]
  | fuel + 1, pat, s =>
    match firstMatch pat s with
    | none => [s]
    | some i =>
      let seg := s.take (i + pat.length)
      let rest := s.drop (i + pat.length)
      if rest.isEmpty then [seg] else seg :: splitIncGo fuel pat rest

/-- Rust `str::split_inclusive` with a string pattern: the substrings between
successive (non-overlapping, leftmost-first) matches, each match kept at the
end of its segment; a final segment without a terminating match is kept, a
trailing empty segment is not; the empty string yields no segments.  An empty
pattern matches at every character boundary. -/
def splitInclusive (pat s : Str) : List Str :=
  if pat.isEmpty then
    if s.isEmpty then [] else [] :: s.map ([·])
  else splitIncGo s.length pat s

/-- Rust `str::split` with a `char` pattern (always at least one segment). -/
def splitOnChar (c : Char) : Str → List Str
  | [] => [[]]
  | d :: rest =>
    if d == c then [] :: splitOnChar c rest
    else
      match splitOnChar c rest with
      | [] => [[d]]
      | x :: xs => (d :: x) :: xs

/-- Sequence a list of possibly-panicking computations: `none` (a panic)
anywhere makes the whole list panic. -/
def seqOpt {α : Type} : List (Option α) → Option (List α)
  | [] => some []
  | none :: _ => none
  | some a :: rest => (seqOpt rest).map (a :: ·)

/-! ## Error type (src/kcheck/src/error.rs) -/

/-- Error type `KcheckError` from `src/kcheck/src/error.rs` (payloads are
strings). -/
inductive KcheckError where
  | DuplicateConfig (s : Str)
  | FileDoesNotExist (s : Str)
  | InvalidFile (s : Str)
  | IoError (s : Str)
  | JsonParseError (s : Str)
  | KernelConfigBuildError (s : Str)
  | KernelConfigNotFound
  | KernelConfigParseError
  | MissingFileExtension
  | NoConfig
  | TomlParseError (s : Str)
  | UninitializedField (s : Str)
  | UnknownFileType (s : Str)
  | UnknownKernelConfigOption (s : Str)
  deriving DecidableEq, Repr

/-- Rust `KcheckResult<T> = Result<T, KcheckError>`. -/
inductive KcheckResult (α : Type) where
  | ok (val : α)
  | error (e : KcheckError)
  deriving DecidableEq, Repr

/-! ## State lattice (src/kcheck/src/kconfig.rs) -/

/-- State type `KconfigState` from `src/kcheck/src/kconfig.rs`.  The `Value` variant is
matched by `KernelConfigBuilder::option` (`src/kcheck/src/kernel.rs:205`) and
declared by the spec with a `u64` payload, modelled here as `Nat`. -/
inductive KconfigState where
  | NotFound
  | NotSet
  | Off
  | Disabled
  | On
  | Module
  | Enabled
  | Value (v : Nat)
  | Text (s : Str)
  deriving DecidableEq, Repr

/-- Modelled from the spec: `KconfigState::check` (the lattice satisfaction
relation `desired.check(observed)`, spec §4.1) is called by
`Kcheck::perform_check` in `src/kcheck/src/lib.rs` but its definition is not
among the provided sources.  Per the spec: `Disabled` is satisfied by
`NotFound`, `NotSet` or `Off`; `Enabled` by `On` or `Module`; every other
desired variant only by a structurally equal observed value. -/
def KconfigState.check (desired observed : KconfigState) : Bool :=
  match desired with
  | .Disabled =>
    observed == .NotFound || observed == .NotSet || observed == .Off
  | .Enabled => observed == .On || observed == .Module
  | d => d == observed

/-- Named option `KconfigOption` from `src/kcheck/src/kconfig.rs`. -/
structure KconfigOption where
  name : Str
  state : KconfigState
  deriving DecidableEq, Repr

/-! ## Config-line scanner (src/kcheck/src/kernel.rs, `impl KernelConfig`) -/

/-- Helper `KernelConfig::is_comment`: `line.starts_with('#')`
(`src/kcheck/src/kernel.rs:318`).  Note: no trimming of leading whitespace. -/
def isComment (line : Str) : Bool :=
  match line with
  | [] => false
  | c :: _ => c == '#'

/-- Helper `KernelConfig::contains_is_not_set`
(`src/kcheck/src/kernel.rs:314`). -/
def containsIsNotSet (s : Str) : Bool :=
  containsSub ("is not set".data) s

/-- Candidate test inside the fold of `KernelConfig::option`
(`src/kcheck/src/kernel.rs:279`): the line contains the symbol but not the
guard string `symbol + "_"`. -/
def isCandidate (opt line : Str) : Bool :=
  containsSub opt line && !containsSub (opt ++ ['_']) line

/-- Classification of one candidate line, the body of the fold in
`KernelConfig::option` (`src/kcheck/src/kernel.rs:281-299`).  `none` marks a
Rust panic: `line_parts[1]` is indexed without a bounds check in the
comment branch (and `line_parts[0]` requires a non-empty split). -/
def classifyLine (opt line : Str) : Option (KcheckResult KconfigState) :=
  match splitInclusive opt line with
  | [] => none
  | [p0] =>
    if isComment p0 then none
    else some (.error .KernelConfigParseError)
  | p0 :: p1 :: _ =>
    if isComment p0 then
      if containsIsNotSet p1 then some (.ok .NotSet)
      else some (.error .KernelConfigParseError)
    else if containsChar '=' p1 then
      match (splitOnChar '=' p1).get? 1 with
      | none => none
      | some v =>
        if v = "y".data then some (.ok .On)
        else if v = "m".data then some (.ok .Module)
        else if v = "n".data then some (.ok .Off)
        else some (.error (.UnknownKernelConfigOption v))
    else some (.error .KernelConfigParseError)

/-- One step of the fold of `KernelConfig::option`
(`src/kcheck/src/kernel.rs:276-304`): skip non-candidates, append the
classification of a candidate, propagate a panic. -/
def collectStep (opt : Str) (acc : Option (List (KcheckResult KconfigState)))
    (line : Str) : Option (List (KcheckResult KconfigState)) :=
  match acc with
  | none => none
  | some found =>
    if isCandidate opt line then
      match classifyLine opt line with
      | none => none
      | some r => some (found ++ [r])
    else some found

/-- The fold of `KernelConfig::option` (`src/kcheck/src/kernel.rs:276-304`):
collect one outcome per candidate line, in order; a panic while classifying
any candidate aborts the whole lookup. -/
def collectStates (opt : Str) (lines : List Str) :
    Option (List (KcheckResult KconfigState)) :=
  lines.foldl (collectStep opt) (some [])

/-- Lookup `KernelConfig::option` (`src/kcheck/src/kernel.rs:270-312`) over
the stored lines: zero candidates gives `Ok(NotFound)`, one gives its
outcome, two or more give `Err(DuplicateConfig(symbol))`. -/
def kernelOption (lines : List Str) (opt : Str) :
    Option (KcheckResult KconfigState) :=
  match collectStates opt lines with
  | none => none
  | some found =>
    match found with
    | [] => some (.ok .NotFound)
    | [r] => some r
    | _ => some (.error (.DuplicateConfig opt))

/-- Predicate `KernelConfig::check_option` (`src/kcheck/src/kernel.rs:325`):
structural equality of the observed state with the desired state, `false` on
any lookup error; a lookup panic propagates. -/
def checkOption (lines : List Str) (opt : Str) (desired : KconfigState) :
    Option Bool :=
  match kernelOption lines opt with
  | none => none
  | some (.ok state) => some (state == desired)
  | some (.error _) => some false

/-! ## Kernel config builder (src/kcheck/src/kernel.rs, builder half) -/

/-- Line rendered by `KernelConfigBuilder::option`
(`src/kcheck/src/kernel.rs:198-211`).  `Value` hits `todo!()`, a panic,
modelled as `none`. -/
def renderLine (opt : Str) (state : KconfigState) : Option Str :=
  match state with
  | .NotFound => some []
  | .NotSet => some (('#' :: ' ' :: opt) ++ (" is not set".data))
  | .Off | .Disabled => some (opt ++ "=n".data)
  | .On | .Enabled => some (opt ++ "=y".data)
  | .Module => some (opt ++ "=m".data)
  | .Value _ => none
  | .Text s => some (opt ++ ('=' :: '"' :: s) ++ ['"'])

/-- File-type flag `RequiresInflate` (`src/kcheck/src/kernel.rs:145`). -/
inductive RequiresInflate where
  | True
  | False
  deriving DecidableEq, Repr

/-- Meta file information `KernelConfigFileInfo`
(`src/kcheck/src/kernel.rs:17`). -/
structure KernelConfigFileInfo where
  path : Str
  inflate : RequiresInflate
  deriving DecidableEq, Repr

/-- Source descriptor `KernelConfigSource` (`src/kcheck/src/kernel.rs:112`). -/
inductive KernelConfigSource where
  | String
  | File (path : Str)
  | Stdin
  deriving DecidableEq, Repr

/-- In-memory kernel config `KernelConfig` (`src/kcheck/src/kernel.rs:263`). -/
structure KernelConfig where
  src : KernelConfigSource
  lines : List Str
  deriving DecidableEq, Repr

/-- Builder state `KernelConfigBuilder` (`src/kcheck/src/kernel.rs:152`). -/
structure KernelConfigBuilder where
  usr_cfg_file : Option Str := none
  sys_cfg_flag : Bool := false
  file_info : Option KernelConfigFileInfo := none
  lines : List Str := []
  deriving DecidableEq, Repr

/-- External collaborators used by `KernelConfigBuilder::build`: probing the
user path (`KernelConfigFileInfo::try_from_user`), locating the system config
(`try_from_system`), and reading/inflating a located file
(`KernelConfigBuilder::try_from_file_info`).  All are filesystem I/O and are
treated as opaque parameters of the build step. -/
structure KernelBuildEnv where
  tryFromUser : Str → KcheckResult KernelConfigFileInfo
  tryFromSystem : KcheckResult KernelConfigFileInfo
  tryFromFileInfo : KernelConfigFileInfo → KcheckResult KernelConfig

/-- Build step `KernelConfigBuilder::build` (`src/kcheck/src/kernel.rs:223`):
the two mutually-exclusive-source checks come first and short-circuit before
any filesystem access. -/
def kernelBuild (env : KernelBuildEnv) (b : KernelConfigBuilder) :
    KcheckResult KernelConfig :=
  if !b.lines.isEmpty && (b.sys_cfg_flag || b.usr_cfg_file.isSome) then
    .error (.KernelConfigBuildError
      ("Cannot set options manually when another builder method is used".data))
  else if b.sys_cfg_flag && b.usr_cfg_file.isSome then
    .error (.KernelConfigBuildError
      ("Both system and user config build methods are set".data))
  else
    let step1 : KcheckResult (Option KernelConfigFileInfo) :=
      match b.usr_cfg_file with
      | some path =>
        match env.tryFromUser path with
        | .ok info => .ok (some info)
        | .error e => .error e
      | none => .ok b.file_info
    match step1 with
    | .error e => .error e
    | .ok fi1 =>
      let step2 : KcheckResult (Option KernelConfigFileInfo) :=
        if b.sys_cfg_flag then
          match env.tryFromSystem with
          | .ok info => .ok (some info)
          | .error e => .error e
        else .ok fi1
      match step2 with
      | .error e => .error e
      | .ok fi2 =>
        match fi2 with
        | some info => env.tryFromFileInfo info
        | none =>
          if b.lines.isEmpty then
            .error (.KernelConfigBuildError
              ("No config file information found".data))
          else .ok { src := .String, lines := b.lines }

/-! ## Requirement aggregation (src/kcheck/src/config.rs, src/kcheck/src/util.rs) -/

/-- Helper `option_vector_append` from `src/kcheck/src/util.rs:72`. -/
def optionVectorAppend {α : Type} (orig other : Option (List α)) :
    Option (List α) :=
  match other with
  | none => orig
  | some o =>
    match orig with
    | none => some o
    | some g => some (g ++ o)

/-- Fragment `KcheckConfigFragment` from `src/kcheck/src/config.rs:28`. -/
structure KcheckConfigFragment where
  name : Option Str
  reason : Option Str
  kernel : List KconfigOption
  deriving DecidableEq, Repr

/-- Aggregate document `KcheckConfig` from `src/kcheck/src/config.rs:178`. -/
structure KcheckConfig where
  name : Option Str := none
  kernel : Option (List KconfigOption) := none
  fragment : Option (List KcheckConfigFragment) := none
  deriving DecidableEq, Repr

/-- Merge step `KcheckConfig::append` (`src/kcheck/src/config.rs:205`): the
combined document keeps `self`'s name and concatenates the `kernel` and
`fragment` lists through `option_vector_append`. -/
def KcheckConfig.appendCfg (self other : KcheckConfig) : KcheckConfig :=
  { name := self.name
    kernel := optionVectorAppend self.kernel other.kernel
    fragment := optionVectorAppend self.fragment other.fragment }

/-- Flattening `impl IntoIterator for KcheckConfig`
(`src/kcheck/src/config.rs:231-253`): the document's own `kernel` options,
extended with every fragment's options, mapped to `(name, state)` pairs. -/
def KcheckConfig.intoIter (c : KcheckConfig) : List (Str × KconfigState) :=
  let kernel : List KconfigOption :=
    match c.kernel with
    | some k => k
    | none => []
  let fragments : List KconfigOption :=
    match c.fragment with
    | some f => (f.map (fun fr => fr.kernel)).flatten
    | none => []
  (kernel ++ fragments).map (fun o => (o.name, o.state))

/-- Standard system locations `/etc/kcheck.toml` and `/etc/kcheck.json`
(`src/kcheck/src/config.rs:21-22`). -/
def etcKcheckToml : Str := "/etc/kcheck.toml".data

/-- Standard system location `/etc/kcheck.json`. -/
def etcKcheckJson : Str := "/etc/kcheck.json".data

/-- Builder state `KcheckConfigBuilder` (`src/kcheck/src/config.rs:68`). -/
structure KcheckConfigBuilder where
  name : Option Str := none
  kernel : Option (List KconfigOption) := none
  fragment : Option (List KcheckConfigFragment) := none
  use_sys_cfg : Bool := false
  user_cfg_files : List Str := []
  deriving DecidableEq, Repr

/-- External collaborators used by `KcheckConfigBuilder::build`: the
filesystem existence probe (`Path::exists`) and the document loader
`KcheckConfig::try_from_file` (read + TOML/JSON deserialization). -/
structure KcheckBuildEnv where
  pathExists : Str → Bool
  tryFromFile : Str → KcheckResult KcheckConfig

/-- One step of the user-file collection loop of `KcheckConfigBuilder::build`
(`src/kcheck/src/config.rs:122-130`): append an existing path, abort with
`FileDoesNotExist` on the first missing one. -/
def userFileStep (ex : Str → Bool) (acc : KcheckResult (List Str))
    (item : Str) : KcheckResult (List Str) :=
  match acc with
  | .error e => .error e
  | .ok fs =>
    if ex item then .ok (fs ++ [item])
    else .error (.FileDoesNotExist item)

/-- User-file collection loop of `KcheckConfigBuilder::build`
(`src/kcheck/src/config.rs:122-130`). -/
def collectUserFiles (ex : Str → Bool) (files : List Str) (init : List Str) :
    KcheckResult (List Str) :=
  files.foldl (userFileStep ex) (.ok init)

/-- One step of the document loading loop of `KcheckConfigBuilder::build`
(`src/kcheck/src/config.rs:132-140`): keep a loaded document, silently skip
a `FileDoesNotExist` failure, abort on any other error. -/
def loadStep (tff : Str → KcheckResult KcheckConfig)
    (acc : KcheckResult (List KcheckConfig)) (frag : Str) :
    KcheckResult (List KcheckConfig) :=
  match acc with
  | .error e => .error e
  | .ok coll =>
    match tff frag with
    | .ok cfg => .ok (coll ++ [cfg])
    | .error (.FileDoesNotExist _) => .ok coll
    | .error e => .error e

/-- Document loading loop of `KcheckConfigBuilder::build`
(`src/kcheck/src/config.rs:132-140`). -/
def loadFragmentFiles (tff : Str → KcheckResult KcheckConfig)
    (paths : List Str) : KcheckResult (List KcheckConfig) :=
  paths.foldl (loadStep tff) (.ok [])

/-- Second half of `KcheckConfigBuilder::build`
(`src/kcheck/src/config.rs:132-172`): load the collected paths, extend with
the API-supplied fragment, and combine left-to-right with
`KcheckConfig::append`; an empty collection is `NoConfig`. -/
def kcheckBuildLoad (env : KcheckBuildEnv) (b : KcheckConfigBuilder)
    (fragments : List Str) : KcheckResult KcheckConfig :=
  match loadFragmentFiles env.tryFromFile fragments with
  | .error e => .error e
  | .ok collection0 =>
    match (if b.name.isSome || b.kernel.isSome || b.fragment.isSome then
        collection0 ++
          [{ name := b.name, kernel := b.kernel, fragment := b.fragment }]
      else collection0) with
    | [] => .error .NoConfig
    | combined :: rest => .ok (rest.foldl KcheckConfig.appendCfg combined)

/-- Aggregation `KcheckConfigBuilder::build` (`src/kcheck/src/config.rs:110`):
declared standard locations (when `system()` was requested) and user files
are collected — aborting on the first missing user path — then loaded and
combined by `kcheckBuildLoad`. -/
def kcheckBuild (env : KcheckBuildEnv) (b : KcheckConfigBuilder) :
    KcheckResult KcheckConfig :=
  match collectUserFiles env.pathExists b.user_cfg_files
      (if b.use_sys_cfg then [etcKcheckToml, etcKcheckJson] else []) with
  | .error e => .error e
  | .ok fragments => kcheckBuildLoad env b fragments

/-! ## Spec-shaped definitions

These restate parts of the specification in its own words; the theorems
below compare them with the source-shaped definitions above. -/

/-- Spec §4.2 step 4, amended: aggregation of the per-candidate outcomes in
order.  A panic (`none`) while classifying any candidate propagates;
otherwise zero candidates give `Ok(NotFound)`, one gives its outcome, and two
or more give `Err(DuplicateConfig(symbol))`. -/
def aggregateCandidates (opt : Str)
    (outcomes : List (Option (KcheckResult KconfigState))) :
    Option (KcheckResult KconfigState) :=
  match seqOpt outcomes with
  | none => none
  | some [] => some (.ok .NotFound)
  | some [r] => some r
  | some (_ :: _ :: _) => some (.error (.DuplicateConfig opt))

/-- Spec §4.4 normalization: the document's own flat options followed by
every fragment's options, in stored order, with no de-duplication. -/
def intoCheckListSpec (c : KcheckConfig) : List (Str × KconfigState) :=
  ((c.kernel.getD []).map (fun o => (o.name, o.state))) ++
    ((c.fragment.getD []).flatMap
      (fun fr => fr.kernel.map (fun o => (o.name, o.state))))

/-- The token of `s` strictly between the first occurrence of `c` and the
second occurrence of `c` (or the end of `s`). -/
def betweenFirstTwo (c : Char) (s : Str) : Str :=
  ((s.dropWhile (fun d => !(d == c))).drop 1).takeWhile (fun d => !(d == c))

/-- Spec §4.2 value mapping for an assignment token: `y`, `m`, `n` map to the
tristate, anything else is an unknown-option error carrying the token. -/
def tokenOutcome (v : Str) : KcheckResult KconfigState :=
  if v = "y".data then .ok .On
  else if v = "m".data then .ok .Module
  else if v = "n".data then .ok .Off
  else .error (.UnknownKernelConfigOption v)

/-- Kernel-convention symbol characters: uppercase ASCII letters, ASCII
digits, and underscore (`CONFIG_FOO` style). -/
def isSymChar (c : Char) : Bool :=
  ('A' ≤ c && c ≤ 'Z') || ('0' ≤ c && c ≤ '9') || c == '_'

/-- A load outcome that aggregation treats as recoverable: success, or the
declared-but-absent marker `FileDoesNotExist`. -/
def okOrMissing {α : Type} : KcheckResult α → Bool
  | .ok _ => true
  | .error (.FileDoesNotExist _) => true
  | .error _ => false

/-- Whether an error is the declared-but-absent marker. -/
def isFileMissing : KcheckError → Bool
  | .FileDoesNotExist _ => true
  | _ => false

/-- The requirement-document paths `KcheckConfigBuilder::build` declares, in
the order it visits them: standard system locations first (when requested),
then user-supplied files. -/
def declaredPaths (b : KcheckConfigBuilder) : List Str :=
  (if b.use_sys_cfg then [etcKcheckToml, etcKcheckJson] else []) ++
    b.user_cfg_files

/-- The API-supplied document assembled from the builder's direct fields
(`src/kcheck/src/config.rs:143-158`). -/
def apiDocument (b : KcheckConfigBuilder) : KcheckConfig :=
  { name := b.name, kernel := b.kernel, fragment := b.fragment }

/-- Whether the builder carries any API-supplied content. -/
def hasApiDocument (b : KcheckConfigBuilder) : Bool :=
  b.name.isSome || b.kernel.isSome || b.fragment.isSome

/-- The document a path contributes to aggregation when recoverable
failures are skipped: `some` of the parsed document on success, `none` on
any load error. -/
def tryLoadOk (tff : Str → KcheckResult KcheckConfig) (p : Str) :
    Option KcheckConfig :=
  match tff p with
  | .ok cfg => some cfg
  | .error _ => none

/-- Spec §4.4, amended: the documents aggregation actually combines, when
every declared path loads or is absent — the successfully loaded documents in
declared order, then the API document if any. -/
def loadedDocuments (env : KcheckBuildEnv) (b : KcheckConfigBuilder) :
    List KcheckConfig :=
  ((declaredPaths b).filterMap (tryLoadOk env.tryFromFile)) ++
    (if hasApiDocument b then [apiDocument b] else [])

/-- Spec §4.4, amended: combine the found documents left-to-right, or fail
with `NoConfig` when none were found. -/
def combineSpec (docs : List KcheckConfig) : KcheckResult KcheckConfig :=
  match docs with
  | [] => .error .NoConfig
  | combined :: rest => .ok (rest.foldl KcheckConfig.appendCfg combined)

/-! ## Helper lemmas: prefix tests and match positions -/

theorem pfx_append_self (p t : Str) : pfx p (p ++ t) = true := by
  induction p with
  | nil => rfl
  | cons a as ih => simp [pfx, ih]

theorem pfx_length_le {p s : Str} (h : pfx p s = true) : p.length ≤ s.length := by
  induction p generalizing s with
  | nil => simp
  | cons a as ih =>
    cases s with
    | nil => simp [pfx] at h
    | cons b bs =>
      simp only [pfx, Bool.and_eq_true] at h
      simpa using ih h.2

theorem pfx_take {p s : Str} (h : pfx p s = true) : p = s.take p.length := by
  induction p generalizing s with
  | nil => simp
  | cons a as ih =>
    cases s with
    | nil => simp [pfx] at h
    | cons b bs =>
      simp only [pfx, Bool.and_eq_true, beq_iff_eq] at h
      simpa [List.take, h.1] using ih h.2

theorem pfx_eq_of_length {p s : Str} (h : pfx p s = true)
    (hl : p.length = s.length) : p = s := by
  rw [pfx_take h, hl, List.take_length]

theorem pfx_cancel (l p s : Str) : pfx (l ++ p) (l ++ s) = pfx p s := by
  induction l with
  | nil => rfl
  | cons a as ih => simp [pfx, ih]

theorem pfx_false_of_head {a b : Char} (as bs : Str) (h : (a == b) = false) :
    pfx (a :: as) (b :: bs) = false := by
  simp [pfx, h]

theorem fm_of_pfx {pat s : Str} (i : Nat) (h : pfx pat s = true) :
    firstMatchAux pat s i = some i := by
  unfold firstMatchAux
  simp [h]

theorem fm_skip {pat : Str} {b : Char} {bs : Str} (i : Nat)
    (h : pfx pat (b :: bs) = false) :
    firstMatchAux pat (b :: bs) i = firstMatchAux pat bs (i + 1) := by
  conv_lhs => unfold firstMatchAux
  simp [h]

theorem fm_none_of_forall {pat s : Str}
    (h : ∀ n, pfx pat (s.drop n) = false) : ∀ i, firstMatchAux pat s i = none := by
  induction s with
  | nil =>
    intro i
    have h0 : pfx pat [] = false := by simpa using h 0
    unfold firstMatchAux
    simp [h0]
  | cons b bs ih =>
    intro i
    have h0 : pfx pat (b :: bs) = false := by simpa using h 0
    rw [fm_skip i h0]
    exact ih (fun n => h (n + 1)) (i + 1)

theorem fm_append_at {pat s : Str} (pre : Str) (i : Nat)
    (hpre : ∀ j, j < pre.length → pfx pat ((pre ++ s).drop j) = false)
    (hs : pfx pat s = true) :
    firstMatchAux pat (pre ++ s) i = some (i + pre.length) := by
  induction pre generalizing i with
  | nil => simpa using fm_of_pfx i hs
  | cons c pre' ih =>
    have h0 : pfx pat (c :: (pre' ++ s)) = false := by
      simpa using hpre 0 (by simp)
    rw [List.cons_append, fm_skip i h0, ih (i + 1) (fun j hj => by
      simpa using hpre (j + 1) (by simpa using hj))]
    simp [Nat.add_assoc, Nat.add_comm 1]

theorem fm_none_head {a : Char} {as t : Str} (i : Nat)
    (h : ∀ d ∈ t, (a == d) = false) : firstMatchAux (a :: as) t i = none := by
  induction t generalizing i with
  | nil =>
    unfold firstMatchAux
    simp [pfx]
  | cons d rest ih =>
    rw [fm_skip i (pfx_false_of_head as rest (h d (by simp)))]
    exact ih (i + 1) (fun e he => h e (by simp [he]))

/-! ## Helper lemmas: inclusive splitting -/

theorem splitIncGo_no_match {pat s : Str} (fuel : Nat) (hs : s ≠ [])
    (h : firstMatch pat s = none) : splitIncGo fuel pat s = [s] := by
  cases s with
  | nil => exact absurd rfl hs
  | cons b bs =>
    cases fuel with
    | zero => rfl
    | succ m => simp [splitIncGo, h]

theorem splitIncGo_match {pat s : Str} (fuel i : Nat) (hs : s ≠ [])
    (h : firstMatch pat s = some i) :
    splitIncGo (fuel + 1) pat s =
      if (s.drop (i + pat.length)).isEmpty then [s.take (i + pat.length)]
      else s.take (i + pat.length) :: splitIncGo fuel pat (s.drop (i + pat.length)) := by
  cases s with
  | nil => exact absurd rfl hs
  | cons b bs => simp [splitIncGo, h]

theorem splitInclusive_pre_pat (pat pre t : Str) (hp : pat ≠ [])
    (hpre : ∀ j, j < pre.length → pfx pat ((pre ++ (pat ++ t)).drop j) = false)
    (ht : firstMatch pat t = none) (htne : t ≠ []) :
    splitInclusive pat (pre ++ pat ++ t) = [pre ++ pat, t] := by
  have hfm : firstMatch pat (pre ++ (pat ++ t)) = some pre.length := by
    simpa using fm_append_at pre 0 hpre (pfx_append_self pat t)
  have hslen : (pre ++ pat ++ t).length = pre.length + pat.length + t.length := by
    simp
    omega
  have hpos : 0 < (pre ++ pat ++ t).length := by
    have : 0 < pat.length := List.length_pos.mpr hp
    omega
  obtain ⟨m, hm⟩ : ∃ m, (pre ++ pat ++ t).length = m + 1 :=
    ⟨(pre ++ pat ++ t).length - 1, by omega⟩
  have htake : (pre ++ pat ++ t).take (pre.length + pat.length) = pre ++ pat := by
    have : pre ++ pat ++ t = (pre ++ pat) ++ t := by simp
    rw [this]
    have hlen : (pre ++ pat).length = pre.length + pat.length := by simp
    rw [← hlen, List.take_left]
  have hdrop : (pre ++ pat ++ t).drop (pre.length + pat.length) = t := by
    have : pre ++ pat ++ t = (pre ++ pat) ++ t := by simp
    rw [this]
    have hlen : (pre ++ pat).length = pre.length + pat.length := by simp
    rw [← hlen, List.drop_left]
  have hne : pre ++ pat ++ t ≠ [] := by
    intro hcon
    rw [hcon] at hpos
    simp at hpos
  have hfm' : firstMatch pat (pre ++ pat ++ t) = some pre.length := by
    simpa [List.append_assoc] using hfm
  unfold splitInclusive
  rw [if_neg (by simpa using hp), hm,
    splitIncGo_match m pre.length hne hfm', hdrop, htake,
    if_neg (by simpa using htne), splitIncGo_no_match m htne ht]

/-! ## Helper lemmas: character classes and absence of guard matches -/

theorem pfx_append_left {p q s : Str} (h : pfx (p ++ q) s = true) :
    pfx p s = true := by
  induction p generalizing s with
  | nil => rfl
  | cons a as ih =>
    cases s with
    | nil => simp [pfx] at h
    | cons b bs =>
      simp only [List.cons_append, pfx, Bool.and_eq_true] at h ⊢
      exact ⟨h.1, ih h.2⟩

/-- Characters a kernel-convention symbol avoids: everything the scanner's
own line syntax is made of. -/
def scannerChars : Str := "#= ymnistoe".data

theorem symChar_ne {a : Char} (h : isSymChar a = true) :
    ∀ d ∈ scannerChars, (a == d) = false := by
  intro d hd
  rw [beq_eq_false_iff_ne]
  intro heq
  subst heq
  have hall : ∀ x ∈ scannerChars, isSymChar x = false := by decide
  rw [hall a hd] at h
  cases h

theorem fm_isSome_of_pfx {pat s : Str} (n : Nat)
    (h : pfx pat (s.drop n) = true) :
    ∀ i, (firstMatchAux pat s i).isSome = true := by
  induction s generalizing n with
  | nil =>
    intro i
    have h0 : pfx pat [] = true := by simpa using h
    unfold firstMatchAux
    simp [h0]
  | cons b bs ih =>
    intro i
    by_cases h0 : pfx pat (b :: bs) = true
    · unfold firstMatchAux
      simp [h0]
    · rw [fm_skip i (by simpa using h0)]
      cases n with
      | zero => simp at h; exact absurd h h0
      | succ n' => exact ih n' (by simpa using h) (i + 1)

theorem noGuard_assign {sym : Str} (hne : sym ≠ [])
    (hsym : ∀ a ∈ sym, isSymChar a = true) (c : Char) (hc : c ≠ '_') :
    containsSub (sym ++ ['_']) (sym ++ ['=', c]) = false := by
  unfold containsSub firstMatch
  rw [fm_none_of_forall ?_ 0]
  · rfl
  intro n
  match n with
  | 0 =>
    have hb : ('_' == '=') = false := by decide
    simp [pfx_cancel sym ['_'] ['=', c], pfx, hb]
  | n' + 1 =>
    by_contra hcon
    rw [Bool.not_eq_false] at hcon
    have hlen := pfx_length_le hcon
    simp [List.length_drop] at hlen
    have hn' : n' = 0 := by omega
    subst hn'
    obtain ⟨a, as, rfl⟩ : ∃ a as, sym = a :: as := by
      cases sym with
      | nil => exact absurd rfl hne
      | cons a as => exact ⟨a, as, rfl⟩
    have heq : (a :: as) ++ ['_'] = as ++ ['=', c] := by
      apply pfx_eq_of_length hcon
      simp
    have hrev := congrArg List.reverse heq
    simp [List.reverse_append] at hrev
    exact hc hrev.1.symm

theorem noGuard_notset {sym : Str} (hne : sym ≠ [])
    (hsym : ∀ a ∈ sym, isSymChar a = true) :
    containsSub (sym ++ ['_']) ('#' :: ' ' :: (sym ++ " is not set".data)) = false := by
  obtain ⟨a, as, rfl⟩ : ∃ a as, sym = a :: as := by
    cases sym with
    | nil => exact absurd rfl hne
    | cons a as => exact ⟨a, as, rfl⟩
  have ha : isSymChar a = true := hsym a (by simp)
  unfold containsSub firstMatch
  rw [fm_none_of_forall ?_ 0]
  · rfl
  intro n
  match n with
  | 0 =>
    exact pfx_false_of_head _ _ (symChar_ne ha '#' (by decide))
  | 1 =>
    exact pfx_false_of_head _ _ (symChar_ne ha ' ' (by decide))
  | k + 2 =>
    show pfx ((a :: as) ++ ['_']) (((a :: as) ++ " is not set".data).drop k) = false
    have hins : " is not set".data = ' ' :: "is not set".data := by decide
    by_contra hcon
    rw [Bool.not_eq_false, List.drop_append_eq_append_drop] at hcon
    by_cases hk : k ≤ as.length + 1
    · have hk0 : k - (a :: as).length = 0 := by
        simp only [List.length_cons]
        omega
      rw [hk0, List.drop_zero] at hcon
      by_cases hkz : k = 0
      · subst hkz
        rw [List.drop_zero, pfx_cancel] at hcon
        exact absurd hcon (by decide)
      · have hsub : pfx (a :: as) ((a :: as).drop k ++ " is not set".data) = true :=
          pfx_append_left hcon
        have htk := pfx_take hsub
        rw [List.take_append_eq_append_take,
          List.take_of_length_le (by simp)] at htk
        have hlen2 : (a :: as).length - ((a :: as).drop k).length = k := by
          simp only [List.length_drop, List.length_cons]
          omega
        rw [hlen2] at htk
        obtain ⟨k', rfl⟩ : ∃ k', k = k' + 1 := ⟨k - 1, by omega⟩
        have hsp : ' ' ∈ (a :: as) := by
          rw [htk]
          apply List.mem_append_right
          rw [hins, List.take_succ_cons]
          exact List.mem_cons_self _ _
        exact absurd (hsym ' ' hsp) (by decide)
    · rw [List.drop_eq_nil_iff.mpr (by simp only [List.length_cons]; omega),
        List.nil_append] at hcon
      cases hd : (" is not set".data).drop (k - (a :: as).length) with
      | nil => rw [hd] at hcon; simp [pfx] at hcon
      | cons e rest =>
        rw [hd] at hcon
        have he : e ∈ " is not set".data :=
          List.mem_of_mem_drop (by rw [hd]; exact List.mem_cons_self _ _)
        have hef : e ∈ scannerChars := by
          have hall : ∀ x ∈ (" is not set".data), x ∈ scannerChars := by decide
          exact hall e he
        rw [show (a :: as) ++ ['_'] = a :: (as ++ ['_']) from rfl,
          pfx_false_of_head _ _ (symChar_ne ha e hef)] at hcon
        cases hcon

/-! ## Helper lemmas: character splitting -/

theorem splitOnChar_ne_nil (c : Char) (s : Str) : splitOnChar c s ≠ [] := by
  cases s with
  | nil => simp [splitOnChar]
  | cons d rest =>
    by_cases hd : (d == c) = true
    · simp [splitOnChar, hd]
    · rw [Bool.not_eq_true] at hd
      cases h : splitOnChar c rest with
      | nil => simp [splitOnChar, hd, h]
      | cons x xs => simp [splitOnChar, hd, h]

theorem head?_splitOnChar (c : Char) (s : Str) :
    (splitOnChar c s).head? = some (s.takeWhile (fun d => !(d == c))) := by
  induction s with
  | nil => simp [splitOnChar]
  | cons d rest ih =>
    by_cases hd : (d == c) = true
    · simp [splitOnChar, hd, List.takeWhile_cons]
    · rw [Bool.not_eq_true] at hd
      cases h : splitOnChar c rest with
      | nil => exact absurd h (splitOnChar_ne_nil c rest)
      | cons x xs =>
        rw [h] at ih
        simp only [List.head?_cons, Option.some.injEq] at ih
        simp [splitOnChar, hd, h, List.takeWhile_cons, ih]

theorem get1_splitOnChar (c : Char) (s : Str) (h : containsChar c s = true) :
    (splitOnChar c s).get? 1 = some (betweenFirstTwo c s) := by
  induction s with
  | nil => simp [containsChar] at h
  | cons d rest ih =>
    by_cases hd : (d == c) = true
    · have hdw : List.dropWhile (fun x => !(x == c)) (d :: rest) = d :: rest := by
        simp [List.dropWhile_cons, hd]
      rw [show betweenFirstTwo c (d :: rest) =
          ((List.dropWhile (fun x => !(x == c)) (d :: rest)).drop 1).takeWhile
            (fun x => !(x == c)) from rfl, hdw]
      simp only [splitOnChar, hd, if_pos rfl]
      cases hsp : splitOnChar c rest with
      | nil => exact absurd hsp (splitOnChar_ne_nil c rest)
      | cons x xs =>
        have hh := head?_splitOnChar c rest
        rw [hsp] at hh
        simp only [List.head?_cons, Option.some.injEq] at hh
        simp [hh]
    · rw [Bool.not_eq_true] at hd
      have hr : containsChar c rest = true := by
        have hcd : ¬(c = d) := by
          intro heq
          rw [heq] at hd
          simp at hd
        have h' := h
        simp only [containsChar, List.contains_cons, Bool.or_eq_true,
          beq_iff_eq] at h'
        simp only [containsChar]
        exact Or.resolve_left h' hcd
      have hbtw : betweenFirstTwo c (d :: rest) = betweenFirstTwo c rest := by
        simp [betweenFirstTwo, List.dropWhile_cons, hd]
      rw [hbtw, ← ih hr]
      cases hsp : splitOnChar c rest with
      | nil => exact absurd hsp (splitOnChar_ne_nil c rest)
      | cons x xs => simp [splitOnChar, hd, hsp]

/-! ## Helper lemmas: the scanner fold -/

theorem foldl_collectStep_none (opt : Str) (lines : List Str) :
    lines.foldl (collectStep opt) none = none := by
  induction lines with
  | nil => rfl
  | cons l ls ih => simpa [collectStep] using ih

theorem collect_eq_seq (opt : Str) (lines : List Str) : ∀ acc,
    lines.foldl (collectStep opt) (some acc) =
      (seqOpt ((lines.filter (isCandidate opt)).map (classifyLine opt))).map
        (acc ++ ·) := by
  induction lines with
  | nil => intro acc; simp [seqOpt]
  | cons l ls ih =>
    intro acc
    by_cases hc : isCandidate opt l = true
    · cases hcl : classifyLine opt l with
      | none =>
        simp only [List.foldl_cons, collectStep, hc, ite_true, if_true, hcl]
        rw [foldl_collectStep_none]
        simp [List.filter_cons, hc, hcl, seqOpt]
      | some r =>
        simp only [List.foldl_cons, collectStep, hc, ite_true, if_true, hcl]
        rw [ih (acc ++ [r])]
        simp only [List.filter_cons, hc, ite_true, if_true, List.map_cons, hcl,
          seqOpt]
        cases seqOpt ((ls.filter (isCandidate opt)).map (classifyLine opt)) with
        | none => rfl
        | some rs => simp
    · rw [Bool.not_eq_true] at hc
      simp only [List.foldl_cons, collectStep, hc, Bool.false_eq_true, ite_false,
        if_false]
      rw [ih acc]
      simp [List.filter_cons, hc]

theorem collectStates_eq_seq (opt : Str) (lines : List Str) :
    collectStates opt lines =
      seqOpt ((lines.filter (isCandidate opt)).map (classifyLine opt)) := by
  unfold collectStates
  rw [collect_eq_seq]
  cases seqOpt ((lines.filter (isCandidate opt)).map (classifyLine opt)) with
  | none => rfl
  | some rs => simp

theorem kernelOption_singleton {opt line : Str} (hc : isCandidate opt line = true) :
    kernelOption [line] opt = classifyLine opt line := by
  unfold kernelOption collectStates
  cases hcl : classifyLine opt line with
  | none => simp [collectStep, hc, hcl]
  | some r => simp [collectStep, hc, hcl]

/-! ## Helper lemmas: classification branches -/

theorem classifyLine_notset {opt line p0 p1 : Str} {rest : List Str}
    (hsplit : splitInclusive opt line = p0 :: p1 :: rest)
    (hcm : isComment p0 = true) (hns : containsIsNotSet p1 = true) :
    classifyLine opt line = some (.ok .NotSet) := by
  unfold classifyLine
  rw [hsplit]
  simp [hcm, hns]

theorem classifyLine_value {opt line p0 p1 : Str} {rest : List Str}
    (hsplit : splitInclusive opt line = p0 :: p1 :: rest)
    (hcm : isComment p0 = false) (heq : containsChar '=' p1 = true) :
    classifyLine opt line = some (tokenOutcome (betweenFirstTwo '=' p1)) := by
  unfold classifyLine
  rw [hsplit]
  simp only [hcm, Bool.false_eq_true, if_neg, ite_false, heq, ite_true,
    get1_splitOnChar '=' p1 heq, tokenOutcome]
  split_ifs <;> rfl

theorem classifyLine_comment_panic {opt line p0 : Str}
    (hsplit : splitInclusive opt line = [p0]) (hcm : isComment p0 = true) :
    classifyLine opt line = none := by
  unfold classifyLine
  rw [hsplit]
  simp [hcm]

/-! ## Helper lemmas: aggregation folds -/

theorem foldl_userFileStep_error (ex : Str → Bool) (l : List Str) (e : KcheckError) :
    l.foldl (userFileStep ex) (.error e) = .error e := by
  induction l with
  | nil => rfl
  | cons p rest ih =>
    show rest.foldl (userFileStep ex) (userFileStep ex (.error e) p) = .error e
    rw [show userFileStep ex (.error e) p = .error e from rfl]
    exact ih

theorem collectUserFiles_all_ok {ex : Str → Bool} {files : List Str}
    (h : ∀ p ∈ files, ex p = true) : ∀ init,
    files.foldl (userFileStep ex) (.ok init) = .ok (init ++ files) := by
  induction files with
  | nil => intro init; simp
  | cons p rest ih =>
    intro init
    show rest.foldl (userFileStep ex) (userFileStep ex (.ok init) p) = _
    have hp : ex p = true := h p (by simp)
    have hstep : userFileStep ex (.ok init) p = .ok (init ++ [p]) := by
      unfold userFileStep
      rw [hp]
      rfl
    rw [hstep, ih (fun q hq => h q (by simp [hq])) (init ++ [p]),
      List.append_assoc]
    rfl

theorem collectUserFiles_first_missing {ex : Str → Bool} {files pre post : List Str}
    {u : Str} (hsplit : files = pre ++ u :: post)
    (hpre : ∀ p ∈ pre, ex p = true) (hu : ex u = false) : ∀ init,
    files.foldl (userFileStep ex) (.ok init) = .error (.FileDoesNotExist u) := by
  subst hsplit
  induction pre with
  | nil =>
    intro init
    show post.foldl (userFileStep ex) (userFileStep ex (.ok init) u) = _
    have hstep : userFileStep ex (.ok init) u = .error (.FileDoesNotExist u) := by
      unfold userFileStep
      rw [hu]
      rfl
    rw [hstep]
    exact foldl_userFileStep_error ex post _
  | cons p pre' ih =>
    intro init
    have hp : ex p = true := hpre p (by simp)
    show (pre' ++ u :: post).foldl (userFileStep ex) (userFileStep ex (.ok init) p) = _
    have hstep : userFileStep ex (.ok init) p = .ok (init ++ [p]) := by
      unfold userFileStep
      rw [hp]
      rfl
    rw [hstep]
    exact ih (fun q hq => hpre q (by simp [hq])) (init ++ [p])

theorem foldl_loadStep_error (tff : Str → KcheckResult KcheckConfig)
    (l : List Str) (e : KcheckError) :
    l.foldl (loadStep tff) (.error e) = .error e := by
  induction l with
  | nil => rfl
  | cons p rest ih =>
    show rest.foldl (loadStep tff) (loadStep tff (.error e) p) = .error e
    rw [show loadStep tff (.error e) p = .error e from rfl]
    exact ih

theorem loadStep_hard_error (tff : Str → KcheckResult KcheckConfig)
    (coll : List KcheckConfig) {f : Str} {e : KcheckError}
    (he : tff f = .error e) (hm : isFileMissing e = false) :
    loadStep tff (.ok coll) f = .error e := by
  unfold loadStep
  rw [he]
  cases e <;> simp [isFileMissing] at hm ⊢

theorem loadFold_ok {tff : Str → KcheckResult KcheckConfig} {paths : List Str}
    (h : ∀ p ∈ paths, okOrMissing (tff p) = true) : ∀ init,
    paths.foldl (loadStep tff) (.ok init) =
      .ok (init ++ paths.filterMap (tryLoadOk tff)) := by
  induction paths with
  | nil => intro init; simp
  | cons p rest ih =>
    intro init
    have hp : okOrMissing (tff p) = true := h p (by simp)
    have ihr := fun init' => ih (fun q hq => h q (by simp [hq])) init'
    cases htp : tff p with
    | ok cfg =>
      show rest.foldl (loadStep tff) (loadStep tff (.ok init) p) = _
      have hstep : loadStep tff (.ok init) p = .ok (init ++ [cfg]) := by
        unfold loadStep
        rw [htp]
      have hload : tryLoadOk tff p = some cfg := by
        unfold tryLoadOk
        rw [htp]
      rw [hstep, ihr (init ++ [cfg]), List.filterMap_cons_some hload,
        List.append_assoc]
      rfl
    | error e =>
      rw [htp] at hp
      cases e <;> simp [okOrMissing] at hp
      case FileDoesNotExist s =>
        show rest.foldl (loadStep tff) (loadStep tff (.ok init) p) = _
        have hstep : loadStep tff (.ok init) p = .ok init := by
          unfold loadStep
          rw [htp]
        have hload : tryLoadOk tff p = none := by
          unfold tryLoadOk
          rw [htp]
        rw [hstep, ihr init, List.filterMap_cons_none hload]

theorem loadFold_hard_error {tff : Str → KcheckResult KcheckConfig}
    {paths pre post : List Str} {f : Str} {e : KcheckError}
    (hsplit : paths = pre ++ f :: post)
    (hpre : ∀ p ∈ pre, okOrMissing (tff p) = true)
    (he : tff f = .error e) (hm : isFileMissing e = false) : ∀ init,
    paths.foldl (loadStep tff) (.ok init) = .error e := by
  subst hsplit
  induction pre with
  | nil =>
    intro init
    simp only [List.nil_append, List.foldl_cons]
    rw [loadStep_hard_error tff init he hm]
    exact foldl_loadStep_error tff post e
  | cons p pre' ih =>
    intro init
    have hp : okOrMissing (tff p) = true := hpre p (by simp)
    have ihr := fun init' => ih (fun q hq => hpre q (by simp [hq])) init'
    cases htp : tff p with
    | ok cfg =>
      simp only [List.cons_append, List.foldl_cons, loadStep, htp]
      exact ihr (init ++ [cfg])
    | error e' =>
      rw [htp] at hp
      cases e' <;> simp [okOrMissing] at hp
      case FileDoesNotExist s =>
        simp only [List.cons_append, List.foldl_cons, loadStep, htp]
        exact ihr init

/-! ## Helper lemmas: round-trip lookups -/

theorem assign_lookup (sym : Str) (hne : sym ≠ [])
    (hsym : ∀ a ∈ sym, isSymChar a = true) (c : Char)
    (hcS : c ∈ scannerChars) (hcu : c ≠ '_') (hce : (c == '=') = false) :
    kernelOption [sym ++ ['=', c]] sym = some (tokenOutcome [c]) := by
  obtain ⟨a, as, rfl⟩ : ∃ a as, sym = a :: as := by
    cases sym with
    | nil => exact absurd rfl hne
    | cons a as => exact ⟨a, as, rfl⟩
  have ha : isSymChar a = true := hsym a (by simp)
  have hfm : firstMatch (a :: as) ['=', c] = none := by
    unfold firstMatch
    refine fm_none_head 0 ?_
    intro d hd
    rcases List.mem_cons.mp hd with rfl | hd'
    · exact symChar_ne ha '=' (by decide)
    · rcases List.mem_singleton.mp hd' with rfl
      exact symChar_ne ha d hcS
  have hsplit : splitInclusive (a :: as) ((a :: as) ++ ['=', c]) =
      [a :: as, ['=', c]] := by
    have h := splitInclusive_pre_pat (a :: as) [] ['=', c] hne
      (by intro j hj; simp at hj) hfm (by simp)
    simpa using h
  have hcontains : containsSub (a :: as) ((a :: as) ++ ['=', c]) = true := by
    unfold containsSub firstMatch
    rw [fm_isSome_of_pfx 0 (by simpa using pfx_append_self (a :: as) ['=', c]) 0]
  have hcand : isCandidate (a :: as) ((a :: as) ++ ['=', c]) = true := by
    unfold isCandidate
    rw [noGuard_assign hne hsym c hcu, hcontains]
    rfl
  rw [kernelOption_singleton hcand,
    classifyLine_value hsplit (by
      show (a == '#') = false
      exact symChar_ne ha '#' (by decide)) (by simp [containsChar])]
  have hbtw : betweenFirstTwo '=' ['=', c] = [c] := by
    simp [betweenFirstTwo, hce]
  rw [hbtw]

theorem notset_lookup (sym : Str) (hne : sym ≠ [])
    (hsym : ∀ a ∈ sym, isSymChar a = true) :
    kernelOption ['#' :: ' ' :: (sym ++ " is not set".data)] sym =
      some (.ok .NotSet) := by
  obtain ⟨a, as, rfl⟩ : ∃ a as, sym = a :: as := by
    cases sym with
    | nil => exact absurd rfl hne
    | cons a as => exact ⟨a, as, rfl⟩
  have ha : isSymChar a = true := hsym a (by simp)
  have hall : ∀ x ∈ (" is not set".data), x ∈ scannerChars := by decide
  have hfm : firstMatch (a :: as) (" is not set".data) = none := by
    unfold firstMatch
    refine fm_none_head 0 ?_
    intro d hd
    exact symChar_ne ha d (hall d hd)
  have hsplit : splitInclusive (a :: as)
      (['#', ' '] ++ (a :: as) ++ " is not set".data) =
      [['#', ' '] ++ (a :: as), " is not set".data] := by
    refine splitInclusive_pre_pat (a :: as) ['#', ' '] (" is not set".data)
      hne ?_ hfm (by decide)
    intro j hj
    simp only [List.length_cons, List.length_nil] at hj
    match j, hj with
    | 0, _ => exact pfx_false_of_head _ _ (symChar_ne ha '#' (by decide))
    | 1, _ => exact pfx_false_of_head _ _ (symChar_ne ha ' ' (by decide))
  have hcontains : containsSub (a :: as)
      ('#' :: ' ' :: ((a :: as) ++ " is not set".data)) = true := by
    unfold containsSub firstMatch
    rw [fm_isSome_of_pfx 2
      (by simpa using pfx_append_self (a :: as) (" is not set".data)) 0]
  have hcand : isCandidate (a :: as)
      ('#' :: ' ' :: ((a :: as) ++ " is not set".data)) = true := by
    unfold isCandidate
    rw [noGuard_notset hne hsym, hcontains]
    rfl
  rw [kernelOption_singleton hcand]
  have hsplit' : splitInclusive (a :: as)
      ('#' :: ' ' :: ((a :: as) ++ " is not set".data)) =
      [['#', ' '] ++ (a :: as), " is not set".data] := hsplit
  exact classifyLine_notset hsplit' rfl (by decide)

theorem containsChar_of_two {p1 : Str} (h : 2 ≤ p1.count '=') :
    containsChar '=' p1 = true := by
  have hm : '=' ∈ p1 := by
    by_contra hnm
    rw [List.count_eq_zero_of_not_mem hnm] at h
    omega
  simpa [containsChar] using hm

theorem check_eq_beq (d x : KconfigState) (hd : d ≠ .Disabled)
    (he : d ≠ .Enabled) : KconfigState.check d x = (d == x) := by
  cases d <;> first | exact absurd rfl hd | exact absurd rfl he | rfl

theorem seqOpt_all_some {α : Type} (os : List (Option α))
    (h : ∀ o ∈ os, o ≠ none) :
    ∃ rs, seqOpt os = some rs ∧ rs.length = os.length := by
  induction os with
  | nil => exact ⟨[], rfl, rfl⟩
  | cons o rest ih =>
    cases o with
    | none => exact absurd rfl (h none (by simp))
    | some a =>
      obtain ⟨rs, hrs, hlen⟩ := ih (fun o ho => h o (by simp [ho]))
      exact ⟨a :: rs, by simp [seqOpt, hrs], by simp [hlen]⟩

/-! ## Claims

One theorem per claim of the specification review, with witnesses for the
theorems that carry hypotheses and counterexamples for the corrected
claims. -/

/-- C1: the lattice operation `desired.check(observed)`: `Disabled` accepts
exactly `NotFound`, `NotSet`, `Off`; `Enabled` accepts exactly `On`,
`Module`; every other desired variant (including `Value` and `Text`) accepts
exactly a structurally equal observed state.  (`KconfigState.check` is
modelled from the spec, §4.1: its Rust definition is not among the provided
sources, only its caller `Kcheck::perform_check`.) -/
theorem c1_lattice_check (x : KconfigState) :
    (KconfigState.check .Disabled x = true ↔
      (x = .NotFound ∨ x = .NotSet ∨ x = .Off)) ∧
    (KconfigState.check .Enabled x = true ↔ (x = .On ∨ x = .Module)) ∧
    (∀ d : KconfigState, d ≠ .Disabled → d ≠ .Enabled →
      (KconfigState.check d x = true ↔ x = d)) := by
  refine ⟨?_, ?_, ?_⟩
  · show (x == .NotFound || x == .NotSet || x == .Off) = true ↔ _
    simp [beq_iff_eq, or_assoc]
  · show (x == .On || x == .Module) = true ↔ _
    simp [beq_iff_eq]
  · intro d hd he
    rw [check_eq_beq d x hd he]
    constructor
    · intro h
      exact (beq_iff_eq.mp h).symm
    · intro h
      exact beq_iff_eq.mpr h.symm

/-- Witness for C1 at the desired state `NotSet` and observed state
`NotSet`. -/
theorem c1_lattice_check_witness :
    KconfigState.check .NotSet .NotSet = true ↔
      (KconfigState.NotSet = KconfigState.NotSet) :=
  (c1_lattice_check .NotSet).2.2 .NotSet (by decide) (by decide)

/-- C2, counterexample: on two candidate lines that are each a comment ending
at the symbol, the lookup panics (out-of-bounds index) before the duplicate
check, instead of returning `Err(DuplicateConfig)` as the claim states. -/
theorem c2_counterexample :
    kernelOption ["# CONFIG_TEST".data, "# CONFIG_TEST".data]
      "CONFIG_TEST".data = none ∧
    2 ≤ ((["# CONFIG_TEST".data, "# CONFIG_TEST".data]).filter
      (isCandidate "CONFIG_TEST".data)).length ∧
    (none : Option (KcheckResult KconfigState)) ≠
      some (.error (.DuplicateConfig "CONFIG_TEST".data)) := by
  refine ⟨by decide, by decide, by decide⟩

/-- C2, amended: `KernelConfig::option` considers exactly the candidate lines
(containing the symbol but not the guard `symbol + "_"`): its result is the
aggregation of their classifications in order — zero candidates give
`Ok(NotFound)`, one gives its outcome, two or more give
`Err(DuplicateConfig(symbol))` regardless of the individual outcomes,
provided every candidate classifies without panicking (a candidate comment
line whose only symbol occurrence ends the line panics first). -/
theorem c2_scanner_aggregation (lines : List Str) (opt : Str) :
    kernelOption lines opt =
      aggregateCandidates opt
        ((lines.filter (isCandidate opt)).map (classifyLine opt)) ∧
    (lines.filter (isCandidate opt) = [] →
      kernelOption lines opt = some (.ok .NotFound)) ∧
    (∀ l, lines.filter (isCandidate opt) = [l] →
      kernelOption lines opt = classifyLine opt l) ∧
    (2 ≤ (lines.filter (isCandidate opt)).length →
      (∀ l ∈ lines.filter (isCandidate opt), classifyLine opt l ≠ none) →
      kernelOption lines opt = some (.error (.DuplicateConfig opt))) := by
  have heq : kernelOption lines opt =
      aggregateCandidates opt
        ((lines.filter (isCandidate opt)).map (classifyLine opt)) := by
    unfold kernelOption aggregateCandidates
    rw [collectStates_eq_seq]
    cases hs : seqOpt ((lines.filter (isCandidate opt)).map (classifyLine opt)) with
    | none => rfl
    | some rs =>
      cases rs with
      | nil => rfl
      | cons r1 t =>
        cases t with
        | nil => rfl
        | cons r2 t2 => rfl
  refine ⟨heq, ?_, ?_, ?_⟩
  · intro hnil
    rw [heq, hnil]
    rfl
  · intro l hl
    rw [heq, hl]
    cases hcl : classifyLine opt l with
    | none => simp [aggregateCandidates, seqOpt, hcl]
    | some r => simp [aggregateCandidates, seqOpt, hcl]
  · intro hlen hall
    obtain ⟨rs, hrs, hrslen⟩ :=
      seqOpt_all_some ((lines.filter (isCandidate opt)).map (classifyLine opt))
        (by
          intro o ho
          rw [List.mem_map] at ho
          obtain ⟨l, hl, rfl⟩ := ho
          exact hall l hl)
    rw [heq]
    unfold aggregateCandidates
    rw [hrs]
    rw [List.length_map] at hrslen
    rcases rs with _ | ⟨r1, _ | ⟨r2, t2⟩⟩
    · rw [List.length_nil] at hrslen
      omega
    · rw [List.length_singleton] at hrslen
      omega
    · rfl

/-- Witness for C2 at a config with a genuinely duplicated assignment
line. -/
theorem c2_scanner_aggregation_witness :
    kernelOption ["CONFIG_A=y".data, "CONFIG_A=y".data] "CONFIG_A".data =
      some (.error (.DuplicateConfig "CONFIG_A".data)) :=
  (c2_scanner_aggregation ["CONFIG_A=y".data, "CONFIG_A=y".data]
    "CONFIG_A".data).2.2.2 (by decide) (by decide)

/-- C3, counterexample: with `CONFIG_TEST=y` observed `On` and desired
`Enabled`, the lattice relation holds, yet `check_option` returns `false` —
it compares with structural equality, not with `check`. -/
theorem c3_counterexample :
    checkOption ["CONFIG_TEST=y".data] "CONFIG_TEST".data .Enabled =
      some false ∧
    kernelOption ["CONFIG_TEST=y".data] "CONFIG_TEST".data =
      some (.ok .On) ∧
    KconfigState.check .Enabled .On = true := by
  refine ⟨by decide, by decide, by decide⟩

/-- C3, amended: `check_option(symbol, desired)` returns `true` iff
`option(symbol)` returns `Ok` of a state structurally equal to `desired`
(so `Enabled` as desired never matches an observed `On` or `Module`), and
returns `false` whenever `option(symbol)` returns any error. -/
theorem c3_check_option_structural_eq (lines : List Str) (opt : Str)
    (desired : KconfigState) :
    (checkOption lines opt desired = some true ↔
      kernelOption lines opt = some (.ok desired)) ∧
    (∀ e, kernelOption lines opt = some (.error e) →
      checkOption lines opt desired = some false) := by
  constructor
  · unfold checkOption
    cases h : kernelOption lines opt with
    | none => simp
    | some r =>
      cases r with
      | ok st => simp [beq_iff_eq]
      | error e => simp
  · intro e he
    unfold checkOption
    rw [he]

/-- Witness for C3 at a lookup that fails with an unknown-value error. -/
theorem c3_check_option_structural_eq_witness :
    checkOption ["CONFIG_A=q".data] "CONFIG_A".data .On = some false :=
  (c3_check_option_structural_eq ["CONFIG_A=q".data] "CONFIG_A".data .On).2
    (.UnknownKernelConfigOption "q".data) (by decide)

/-- C4, counterexample: on a candidate line whose comment marker is preceded
by whitespace, the prefix after trimming begins with `#` and the suffix
contains `is not set`, so the claim classifies it `NotSet`; the code does not
trim (`is_comment` is a bare `starts_with('#')`) and reports
`KernelConfigParseError`. -/
theorem c4_counterexample :
    kernelOption [" # CONFIG_X is not set".data] "CONFIG_X".data =
      some (.error .KernelConfigParseError) ∧
    isCandidate "CONFIG_X".data " # CONFIG_X is not set".data = true ∧
    splitInclusive "CONFIG_X".data " # CONFIG_X is not set".data =
      [" # CONFIG_X".data, " is not set".data] ∧
    isComment (" # CONFIG_X".data) = false ∧
    isComment ((" # CONFIG_X".data).dropWhile (fun c => c == ' ')) = true ∧
    containsIsNotSet " is not set".data = true ∧
    some (.error .KernelConfigParseError) ≠
      some (KcheckResult.ok KconfigState.NotSet) := by
  refine ⟨by decide, by decide, by decide, by decide, by decide, by decide,
    by decide⟩

/-- C4, amended: for a candidate line split inclusively at the symbol into a
first part `p0` (up to and including the first occurrence) and second part
`p1` (up to the next occurrence or the end of the line): if `p0` begins with
`#` — with no trimming of leading whitespace — and `p1` contains
`is not set`, the lookup classifies the line `NotSet`; if `p0` does not
begin with `#` and `p1` contains `=`, the token of `p1` between its first
`=` and the following `=` (or end) maps `y`/`m`/`n` to `On`/`Module`/`Off`
and anything else to an `UnknownKernelConfigOption(token)` error. -/
theorem c4_candidate_classification (line opt p0 p1 : Str) (rest : List Str)
    (hcand : isCandidate opt line = true)
    (hsplit : splitInclusive opt line = p0 :: p1 :: rest) :
    (isComment p0 = true → containsIsNotSet p1 = true →
      kernelOption [line] opt = some (.ok .NotSet)) ∧
    (isComment p0 = false → containsChar '=' p1 = true →
      kernelOption [line] opt = some (tokenOutcome (betweenFirstTwo '=' p1))) := by
  constructor
  · intro h1 h2
    rw [kernelOption_singleton hcand]
    exact classifyLine_notset hsplit h1 h2
  · intro h1 h2
    rw [kernelOption_singleton hcand]
    exact classifyLine_value hsplit h1 h2

/-- Witness for C4 on a `is not set` line and on an assignment line. -/
theorem c4_candidate_classification_witness :
    kernelOption ["# CONFIG_TEST is not set".data] "CONFIG_TEST".data =
      some (.ok .NotSet) ∧
    kernelOption ["CONFIG_B=m".data] "CONFIG_B".data =
      some (tokenOutcome (betweenFirstTwo '=' ("=m".data))) :=
  ⟨(c4_candidate_classification "# CONFIG_TEST is not set".data
      "CONFIG_TEST".data "# CONFIG_TEST".data " is not set".data []
      (by decide) (by decide)).1 (by decide) (by decide),
   (c4_candidate_classification "CONFIG_B=m".data "CONFIG_B".data
      "CONFIG_B".data "=m".data [] (by decide) (by decide)).2
      (by decide) (by decide)⟩

/-- C5, counterexample: the `Text(s)` round-trip fails — the builder renders
`CONFIG_T="abc"` but re-scanning returns
`Err(UnknownKernelConfigOption("\"abc\""))`, not `Ok(Text("abc"))` (the
crate's own `fail_unknown_option` test expects exactly this error). -/
theorem c5_counterexample :
    (renderLine "CONFIG_T".data (.Text "abc".data)).bind
      (fun l => kernelOption [l] "CONFIG_T".data) =
      some (.error (.UnknownKernelConfigOption "\"abc\"".data)) ∧
    some (.error (.UnknownKernelConfigOption "\"abc\"".data)) ≠
      some (KcheckResult.ok (KconfigState.Text "abc".data)) := by
  refine ⟨by decide, by decide⟩

/-- C5, amended: for every kernel-convention symbol (non-empty, characters
drawn from uppercase ASCII letters, digits and underscore) and every state in
`{On, Module, Off, NotSet}`, rendering the state into a line via the
builder's inverse line-writer and looking the symbol up over that single line
returns `Ok` of the original state; for `Text(s)` the round-trip instead
produces an `UnknownKernelConfigOption` error (see the counterexample). -/
theorem c5_roundtrip (sym : Str) (hne : sym ≠ [])
    (hsym : ∀ a ∈ sym, isSymChar a = true) :
    (renderLine sym .On).bind (fun l => kernelOption [l] sym) =
      some (.ok .On) ∧
    (renderLine sym .Module).bind (fun l => kernelOption [l] sym) =
      some (.ok .Module) ∧
    (renderLine sym .Off).bind (fun l => kernelOption [l] sym) =
      some (.ok .Off) ∧
    (renderLine sym .NotSet).bind (fun l => kernelOption [l] sym) =
      some (.ok .NotSet) := by
  refine ⟨?_, ?_, ?_, ?_⟩
  · show kernelOption [sym ++ ['=', 'y']] sym = some (.ok .On)
    rw [assign_lookup sym hne hsym 'y' (by decide) (by decide) (by decide)]
    decide
  · show kernelOption [sym ++ ['=', 'm']] sym = some (.ok .Module)
    rw [assign_lookup sym hne hsym 'm' (by decide) (by decide) (by decide)]
    decide
  · show kernelOption [sym ++ ['=', 'n']] sym = some (.ok .Off)
    rw [assign_lookup sym hne hsym 'n' (by decide) (by decide) (by decide)]
    decide
  · show kernelOption ['#' :: ' ' :: (sym ++ " is not set".data)] sym =
      some (.ok .NotSet)
    exact notset_lookup sym hne hsym

/-- Witness for C5 at the symbol `CONFIG_T`. -/
theorem c5_roundtrip_witness :
    (renderLine "CONFIG_T".data .On).bind
      (fun l => kernelOption [l] "CONFIG_T".data) = some (.ok .On) ∧
    (renderLine "CONFIG_T".data .Module).bind
      (fun l => kernelOption [l] "CONFIG_T".data) = some (.ok .Module) ∧
    (renderLine "CONFIG_T".data .Off).bind
      (fun l => kernelOption [l] "CONFIG_T".data) = some (.ok .Off) ∧
    (renderLine "CONFIG_T".data .NotSet).bind
      (fun l => kernelOption [l] "CONFIG_T".data) = some (.ok .NotSet) :=
  c5_roundtrip "CONFIG_T".data (by decide) (by decide)

/-- C6: the code violates the claim.  On the candidate line `# CONFIG_TEST`
— a comment whose only occurrence of the symbol ends the line — the split
has a single part, `is_comment(line_parts[0])` is true, and the unguarded
`line_parts[1]` index panics (modelled as `none`) instead of contributing
`Err(KernelConfigParseError)`. -/
theorem c6_scanner_panic :
    kernelOption ["# CONFIG_TEST".data] "CONFIG_TEST".data = none ∧
    isCandidate "CONFIG_TEST".data "# CONFIG_TEST".data = true ∧
    splitInclusive "CONFIG_TEST".data "# CONFIG_TEST".data =
      ["# CONFIG_TEST".data] ∧
    isComment "# CONFIG_TEST".data = true ∧
    classifyLine "CONFIG_TEST".data "# CONFIG_TEST".data = none := by
  refine ⟨by decide, by decide, by decide, by decide, by decide⟩

/-- C7: flattening a `KcheckConfig` into the check list (its `IntoIterator`
instance) is exactly the document's own flat options followed by every
fragment's options, fragments in stored order, each fragment's options in
stored order, with no de-duplication. -/
theorem c7_flatten_order (c : KcheckConfig) :
    c.intoIter = intoCheckListSpec c := by
  unfold KcheckConfig.intoIter intoCheckListSpec
  cases hk : c.kernel <;> cases hf : c.fragment <;>
    simp [List.flatMap, List.map_flatten, Function.comp] <;> rfl

/-- C8, counterexample: a declared-but-absent user-supplied document path is
not skipped silently — aggregation aborts with `FileDoesNotExist` (the claim
would have it skipped, leaving zero documents and `Err(NoConfig)`). -/
theorem c8_counterexample :
    kcheckBuild
      ⟨fun _ => false, fun p => .error (.FileDoesNotExist p)⟩
      { user_cfg_files := ["missing.toml".data] } =
      .error (.FileDoesNotExist "missing.toml".data) ∧
    KcheckResult.error (KcheckError.FileDoesNotExist "missing.toml".data) ≠
      (.error .NoConfig : KcheckResult KcheckConfig) := by
  refine ⟨by decide, by decide⟩

/-- C8, amended: during `KcheckConfigBuilder::build`, a missing user-supplied
path aborts aggregation with `FileDoesNotExist` (checked before loading);
declared standard-location documents whose load fails with
`FileDoesNotExist` are skipped silently; any other load error aborts
aggregation and is surfaced; and when every declared document is loaded or
skipped, the result is the combination of the found documents — or
`Err(NoConfig)` when none were found. -/
theorem c8_aggregation_error_paths (env : KcheckBuildEnv)
    (b : KcheckConfigBuilder) :
    (∀ pre u post, b.user_cfg_files = pre ++ u :: post →
      (∀ p ∈ pre, env.pathExists p = true) → env.pathExists u = false →
      kcheckBuild env b = .error (.FileDoesNotExist u)) ∧
    ((∀ p ∈ b.user_cfg_files, env.pathExists p = true) →
      (∀ p ∈ declaredPaths b, okOrMissing (env.tryFromFile p) = true) →
      kcheckBuild env b = combineSpec (loadedDocuments env b)) ∧
    (∀ pre f post e, (∀ p ∈ b.user_cfg_files, env.pathExists p = true) →
      declaredPaths b = pre ++ f :: post →
      (∀ p ∈ pre, okOrMissing (env.tryFromFile p) = true) →
      env.tryFromFile f = .error e → isFileMissing e = false →
      kcheckBuild env b = .error e) := by
  refine ⟨?_, ?_, ?_⟩
  · intro pre u post hsplit hpre hu
    have hcu : collectUserFiles env.pathExists b.user_cfg_files
        (if b.use_sys_cfg then [etcKcheckToml, etcKcheckJson] else []) =
        .error (.FileDoesNotExist u) :=
      collectUserFiles_first_missing hsplit hpre hu _
    unfold kcheckBuild
    rw [hcu]
  · intro hex hok
    have hcu : collectUserFiles env.pathExists b.user_cfg_files
        (if b.use_sys_cfg then [etcKcheckToml, etcKcheckJson] else []) =
        .ok (declaredPaths b) :=
      collectUserFiles_all_ok hex _
    have hld : loadFragmentFiles env.tryFromFile (declaredPaths b) =
        .ok ((declaredPaths b).filterMap (tryLoadOk env.tryFromFile)) := by
      have h0 := loadFold_ok hok []
      rw [List.nil_append] at h0
      exact h0
    unfold kcheckBuild
    simp only [hcu]
    unfold kcheckBuildLoad
    simp only [hld]
    unfold combineSpec loadedDocuments
    rw [show (b.name.isSome || b.kernel.isSome || b.fragment.isSome) =
      hasApiDocument b from rfl]
    cases hapi : hasApiDocument b with
    | true => rfl
    | false => simp
  · intro pre f post e hex hdecl hpreok hf hm
    have hcu : collectUserFiles env.pathExists b.user_cfg_files
        (if b.use_sys_cfg then [etcKcheckToml, etcKcheckJson] else []) =
        .ok (declaredPaths b) :=
      collectUserFiles_all_ok hex _
    have hld : loadFragmentFiles env.tryFromFile (declaredPaths b) = .error e :=
      loadFold_hard_error hdecl hpreok hf hm []
    unfold kcheckBuild
    simp only [hcu]
    unfold kcheckBuildLoad
    simp only [hld]

/-- Witness for C8: an API-only builder aggregates to its own document. -/
theorem c8_aggregation_error_paths_witness :
    kcheckBuild
      ⟨fun _ => false, fun p => .error (.FileDoesNotExist p)⟩
      { kernel := some [⟨"CONFIG_A".data, .On⟩] } =
      combineSpec (loadedDocuments
        ⟨fun _ => false, fun p => .error (.FileDoesNotExist p)⟩
        { kernel := some [⟨"CONFIG_A".data, .On⟩] }) :=
  (c8_aggregation_error_paths
    ⟨fun _ => false, fun p => .error (.FileDoesNotExist p)⟩
    { kernel := some [⟨"CONFIG_A".data, .On⟩] }).2.1
    (by decide) (by decide)

/-- C9: `KernelConfigBuilder::build` returns a typed
`KernelConfigBuildError` — before touching any file — whenever manually
pushed option lines are combined with the system flag or a user config path,
and whenever both the system flag and a user config path are set; in every
such case no `KernelConfig` is produced. -/
theorem c9_builder_mutual_exclusion (env : KernelBuildEnv)
    (b : KernelConfigBuilder) :
    (b.lines ≠ [] → (b.sys_cfg_flag = true ∨ b.usr_cfg_file.isSome = true) →
      ∃ s, kernelBuild env b = .error (.KernelConfigBuildError s)) ∧
    (b.sys_cfg_flag = true → b.usr_cfg_file.isSome = true →
      ∃ s, kernelBuild env b = .error (.KernelConfigBuildError s)) := by
  constructor
  · intro hl hsrc
    have hcond : (!b.lines.isEmpty &&
        (b.sys_cfg_flag || b.usr_cfg_file.isSome)) = true := by
      simp [List.isEmpty_iff, hl]
      rcases hsrc with h | h <;> simp [h]
    unfold kernelBuild
    rw [if_pos hcond]
    exact ⟨_, rfl⟩
  · intro hs hu
    by_cases hl : b.lines.isEmpty
    · have hcond : (!b.lines.isEmpty &&
          (b.sys_cfg_flag || b.usr_cfg_file.isSome)) = false := by
        simp [hl]
      unfold kernelBuild
      rw [if_neg (by simp [hcond]), if_pos (by simp [hs, hu])]
      exact ⟨_, rfl⟩
    · rw [Bool.not_eq_true] at hl
      have hcond : (!b.lines.isEmpty &&
          (b.sys_cfg_flag || b.usr_cfg_file.isSome)) = true := by
        simp [hl, hs]
      unfold kernelBuild
      rw [if_pos hcond]
      exact ⟨_, rfl⟩

/-- Witness for C9: manual lines plus the system flag, and the system flag
plus a user path, both yield build errors. -/
theorem c9_builder_mutual_exclusion_witness :
    (∃ s, kernelBuild
      ⟨fun _ => .error .KernelConfigNotFound, .error .KernelConfigNotFound,
        fun _ => .error .KernelConfigNotFound⟩
      { sys_cfg_flag := true, lines := ["CONFIG_A=y".data] } =
      .error (.KernelConfigBuildError s)) ∧
    (∃ s, kernelBuild
      ⟨fun _ => .error .KernelConfigNotFound, .error .KernelConfigNotFound,
        fun _ => .error .KernelConfigNotFound⟩
      { sys_cfg_flag := true, usr_cfg_file := some "/k/config".data } =
      .error (.KernelConfigBuildError s)) :=
  ⟨(c9_builder_mutual_exclusion
      ⟨fun _ => .error .KernelConfigNotFound, .error .KernelConfigNotFound,
        fun _ => .error .KernelConfigNotFound⟩
      { sys_cfg_flag := true, lines := ["CONFIG_A=y".data] }).1
      (by decide) (by decide),
   (c9_builder_mutual_exclusion
      ⟨fun _ => .error .KernelConfigNotFound, .error .KernelConfigNotFound,
        fun _ => .error .KernelConfigNotFound⟩
      { sys_cfg_flag := true, usr_cfg_file := some "/k/config".data }).2
      (by decide) (by decide)⟩

/-- C10, counterexample: the claim reads the suffix as everything after the
symbol; when the symbol occurs twice, the code's second split segment stops
at the next occurrence.  On `CONFIG_A CONFIG_A=y=z`, the claim's suffix
` CONFIG_A=y=z` has two `=` and token `y`, so the claim classifies `On`; the
code's segment ` CONFIG_A` has no `=` and the line reports
`KernelConfigParseError`. -/
theorem c10_counterexample :
    kernelOption ["CONFIG_A CONFIG_A=y=z".data] "CONFIG_A".data =
      some (.error .KernelConfigParseError) ∧
    isCandidate "CONFIG_A".data "CONFIG_A CONFIG_A=y=z".data = true ∧
    betweenFirstTwo '=' (" CONFIG_A=y=z".data) = "y".data ∧
    kernelOption ["CONFIG_A=y=z".data] "CONFIG_A".data = some (.ok .On) ∧
    some (.error .KernelConfigParseError) ≠
      some (KcheckResult.ok KconfigState.On) := by
  refine ⟨by decide, by decide, by decide, by decide, by decide⟩

/-- C10, amended: for a non-comment candidate line whose second inclusive
split segment `p1` (after the first symbol occurrence, up to the next
occurrence or the end of the line) contains two or more `=`, the lookup
classifies the line using only the token of `p1` between its first and
second `=` — for example `CONFIG_X=y=z` gives `Ok(On)` — and any other such
line with the same token classifies identically, so text after the second
`=` never influences the result. -/
theorem c10_double_equals_token (line opt p0 p1 : Str) (rest : List Str)
    (hcand : isCandidate opt line = true)
    (hsplit : splitInclusive opt line = p0 :: p1 :: rest)
    (hcm : isComment p0 = false) (hcount : 2 ≤ p1.count '=') :
    kernelOption [line] opt = some (tokenOutcome (betweenFirstTwo '=' p1)) ∧
    (∀ line' opt' p0' p1' : Str, ∀ rest' : List Str,
      isCandidate opt' line' = true →
      splitInclusive opt' line' = p0' :: p1' :: rest' →
      isComment p0' = false → 2 ≤ p1'.count '=' →
      betweenFirstTwo '=' p1' = betweenFirstTwo '=' p1 →
      kernelOption [line'] opt' = kernelOption [line] opt) := by
  have h1 : kernelOption [line] opt =
      some (tokenOutcome (betweenFirstTwo '=' p1)) := by
    rw [kernelOption_singleton hcand]
    exact classifyLine_value hsplit hcm (containsChar_of_two hcount)
  refine ⟨h1, ?_⟩
  intro line' opt' p0' p1' rest' hcand' hsplit' hcm' hcount' htok
  rw [kernelOption_singleton hcand',
    classifyLine_value hsplit' hcm' (containsChar_of_two hcount'), htok, h1]

/-- Witness for C10 at the claim's own example `CONFIG_X=y=z`. -/
theorem c10_double_equals_token_witness :
    kernelOption ["CONFIG_X=y=z".data] "CONFIG_X".data =
      some (tokenOutcome (betweenFirstTwo '=' ("=y=z".data))) ∧
    tokenOutcome (betweenFirstTwo '=' ("=y=z".data)) =
      KcheckResult.ok KconfigState.On :=
  ⟨(c10_double_equals_token "CONFIG_X=y=z".data "CONFIG_X".data
      "CONFIG_X".data "=y=z".data [] (by decide) (by decide) (by decide)
      (by decide)).1,
   by decide⟩

end Kcheck
